import Mathlib

/-!
Shallow embedding of the visited-section progress tracker of
`src/script.js` (Web-development- repository), together with proofs about
its behaviour.

Modelling conventions, stated once:

* The JavaScript `Set` stored in `state.visitedSections` keeps insertion
  order and holds no duplicates; it is embedded as a `List String` whose
  membership test models `Set.has` and whose guarded append models
  `Set.add` (the source only calls `add` after a negative `has` test, so
  appending a fresh element is exact).
* Browser local storage maps string keys to string values.  The platform
  codec `JSON.stringify`/`JSON.parse` is a builtin, not code of this
  repository; a stored string is embedded as either `jsonText j` (the
  stringification of the JSON value `j`, which `JSON.parse` recovers) or
  `rawText s` (a string such as "not json" that is not valid JSON, on
  which `JSON.parse` throws a SyntaxError).
* `new Date().toISOString()` is embedded as an explicit `now : String`
  argument.
* Floating point numbers reaching the tracker (`intersectionRatio`,
  the percentage arithmetic) are embedded as exact rationals; the
  comparison against the literal 0.5 and `Math.round` (round half toward
  positive infinity) are exact on the inputs the claims concern.
* DOM writes (`updateProgressDisplay`, `console.log`, `console.error`)
  do not touch the tracked state; where a claim observes them (the error
  log of the catch branch, the invocation of `markSectionVisited`) the
  embedding returns an explicit flag or outcome value.
-/

/-- A JSON value, the result type of the platform's JSON.parse
(src/script.js line 448) and the argument type of JSON.stringify
(line 440).  Numbers are restricted to integers: no fractional number
occurs in the persisted record. -/
inductive Json where
  | null : Json
  | bool (b : Bool) : Json
  | num (n : Int) : Json
  | str (s : String) : Json
  | arr (xs : List Json) : Json
  | obj (fields : List (String × Json)) : Json

/-- A value held by local storage under some key: either the
stringification of a JSON value (what JSON.stringify produced and
JSON.parse recovers), or a raw string that is not valid JSON (on which
JSON.parse throws). -/
inductive StoredString where
  | jsonText (j : Json) : StoredString
  | rawText (s : String) : StoredString

/-- An exception thrown inside the try block of loadUserProgress
(src/script.js lines 447-455): JSON.parse throwing on invalid input, a
property access on null, or new Set applied to a non-iterable value. -/
inductive JsError where
  | parseFailure : JsError
  | typeError : JsError
deriving DecidableEq, Repr

/-- Browser local storage, an association list from keys to stored
strings; getItem returns the most recent setItem value for the key. -/
abbrev Store := List (String × StoredString)

/-- localStorage.getItem: the value under the key, or none when absent
(JavaScript returns null there). -/
def Store.getItem (store : Store) (k : String) : Option StoredString :=
  (store.find? (fun p => p.1 == k)).map Prod.snd

/-- localStorage.setItem: record the value under the key, shadowing any
earlier binding. -/
def Store.setItem (store : Store) (k : String) (v : StoredString) : Store :=
  (k, v) :: store

/-- CONFIG.STORAGE_KEYS.PROGRESS (src/script.js line 10): the fixed key
the progress record is persisted under. -/
def PROGRESS_KEY : String := "webdev-docs-progress"

/-- The slice of the module-level `state` object (src/script.js lines
22-28) that the progress tracker reads and writes: the set of visited
section identifiers, as a duplicate-free list in insertion order.  The
remaining fields (currentTheme, currentSection, isSidebarOpen,
searchResults) are neither read nor written by the progress-tracking
code and are omitted. -/
structure AppState where
  visitedSections : List String
deriving DecidableEq, Repr

/-- The state at script start: `visitedSections: new Set()`
(src/script.js line 24). -/
def initialState : AppState := ⟨[]⟩

/-- JSON.parse applied to a stored string (src/script.js line 448):
recovers the JSON value from its stringification, throws a SyntaxError
on a string that is not valid JSON. -/
def jsonParse : StoredString → Except JsError Json
  | StoredString.jsonText j => Except.ok j
  | StoredString.rawText _ => Except.error JsError.parseFailure

/-- saveUserProgress (src/script.js lines 434-441): serializes
`{ visitedSections: Array.from(state.visitedSections), lastVisited:
new Date().toISOString() }` and writes it under the PROGRESS key.
Array.from of the insertion-ordered set is the list itself.  The state
is only read. -/
def saveUserProgress (st : AppState) (now : String) (store : Store) : Store :=
  store.setItem PROGRESS_KEY (StoredString.jsonText (Json.obj
    [("visitedSections", Json.arr (st.visitedSections.map Json.str)),
     ("lastVisited", Json.str now)]))

/-- markSectionVisited (src/script.js lines 361-367).  Returns the
updated state, the updated store, and whether the body of the `if` ran
(equivalently, whether saveUserProgress was invoked - the persistence
write happens exactly on a genuine insertion).  updateProgressDisplay
only writes to the DOM and is not part of the tracked state. -/
def markSectionVisited (st : AppState) (sectionId : String) (now : String)
    (store : Store) : AppState × Store × Bool :=
  if sectionId ∈ st.visitedSections then
    (st, store, false)
  else
    let st2 : AppState := ⟨st.visitedSections ++ [sectionId]⟩
    (st2, saveUserProgress st2 now store, true)

/-- The value the call expression `markSectionVisited(id)` evaluates to
in JavaScript: the function body (src/script.js lines 361-367) contains
no return statement on any path, so every call returns undefined.  The
embedding distinguishes undefined from the booleans. -/
inductive JsValue where
  | undefined : JsValue
  | boolean (b : Bool) : JsValue
deriving DecidableEq, Repr

/-- The return value of markSectionVisited for any state and argument:
always undefined (no return statement in src/script.js lines 361-367). -/
def markSectionVisitedReturn (_st : AppState) (_sectionId : String) : JsValue :=
  JsValue.undefined

/-- A finite sequence of markSectionVisited calls, threading state and
store; models any run of visibility or navigation events delivering the
listed section identifiers in order. -/
def runMarks (now : String) : AppState → Store → List String → AppState × Store
  | st, store, [] => (st, store)
  | st, store, id :: ids =>
      runMarks now (markSectionVisited st id now store).1
        (markSectionVisited st id now store).2.1 ids

/-- Math.round as JavaScript defines it: round half toward positive
infinity, the floor of the argument plus one half. -/
def jsMathRound (q : ℚ) : ℤ := ⌊q + 1 / 2⌋

/-- The percentage computed by updateProgressDisplay (src/script.js line
372): `Math.round((completedCount / totalCount) * 100)`, with the float
arithmetic embedded as exact rational arithmetic.  completedCount is
`state.visitedSections.size`, totalCount the externally supplied total
section count (`elements.sections.length`). -/
def completionPercentage (completedCount totalCount : ℕ) : ℤ :=
  jsMathRound ((completedCount : ℚ) / (totalCount : ℚ) * 100)

/-- JavaScript truthiness of a parsed JSON value, as used by
`progress.visitedSections || []` (src/script.js line 449): null, false,
zero and the empty string are falsy, every array and object truthy. -/
def jsTruthy : Json → Bool
  | Json.null => false
  | Json.bool b => b
  | Json.num n => n != 0
  | Json.str s => s != ""
  | Json.arr _ => true
  | Json.obj _ => true

/-- Property lookup on a JSON object literal: the value of the first
field with the given name, or none (undefined) when no field has it. -/
def jsonLookup (fields : List (String × Json)) (k : String) : Option Json :=
  (fields.find? (fun p => p.1 == k)).map Prod.snd

/-- The property access `progress.visitedSections` (src/script.js line
449) on an arbitrary JSON.parse result: a field lookup on an object
(undefined when absent), undefined on strings, numbers, booleans and
arrays (no such property), and a thrown TypeError on null. -/
def Json.memberAccess : Json → String → Except JsError (Option Json)
  | Json.obj fields, k => Except.ok (jsonLookup fields k)
  | Json.null, _ => Except.error JsError.typeError
  | _, _ => Except.ok none

/-- The expression `v || []` of src/script.js line 449: the left operand
when it is present and truthy, otherwise the empty array (undefined and
every falsy value fall through). -/
def jsOrEmptyArray : Option Json → Json
  | none => Json.arr []
  | some j => if jsTruthy j then j else Json.arr []

/-- One step of JavaScript Set construction: append the element unless
already present (first occurrence wins, insertion order kept). -/
def insSetList (l : List String) (x : String) : List String :=
  if x ∈ l then l else l ++ [x]

/-- The contents of `new Set(xs)` for a list of elements: deduplicated,
first occurrences in order. -/
def setFromList (xs : List String) : List String :=
  xs.foldl insSetList []

/-- The string content of a JSON value when it is a string. -/
def Json.asStr : Json → Option String
  | Json.str s => some s
  | _ => none

/-- The constructor call `new Set(v)` of src/script.js line 449 on a
JSON value: an array yields the set of its elements (the persisted
record holds string identifiers; elements of other shapes, which the
tracker never writes, are outside the model and dropped), a string is
iterated character by character, and null, booleans, numbers and
objects are not iterable and throw a TypeError. -/
def newSetOfStrings : Json → Except JsError (List String)
  | Json.arr xs => Except.ok (setFromList (xs.filterMap Json.asStr))
  | Json.str s => Except.ok (setFromList (s.toList.map (fun c => String.mk [c])))
  | _ => Except.error JsError.typeError

/-- The try block of loadUserProgress (src/script.js lines 447-452):
parse the stored string, read `progress.visitedSections || []`, build
the new Set, and return the updated state together with the loaded
count (the success path logs this count).  Any thrown exception
surfaces as the error case. -/
def loadTry (st : AppState) (sv : StoredString) :
    Except JsError (AppState × ℕ) := do
  let progress ← jsonParse sv
  let v ← progress.memberAccess "visitedSections"
  let l ← newSetOfStrings (jsOrEmptyArray v)
  Except.ok ({ st with visitedSections := l }, l.length)

/-- What a run of loadUserProgress observably did.  `noRecord` covers
every run in which the guard is falsy and the whole if branch is
skipped without any log or error. -/
inductive LoadOutcome where
  | noRecord : LoadOutcome
  | loaded (n : ℕ) : LoadOutcome
  | parseError : LoadOutcome
deriving DecidableEq, Repr

/-- JavaScript truthiness of a stored string, as tested by the guard
`if (savedProgress)` (src/script.js line 446): a string is truthy
exactly when non-empty.  JSON.stringify output always starts with a
token, so it is never the empty string; only a raw stored string can be
falsy. -/
def storedTruthy : StoredString → Bool
  | StoredString.jsonText _ => true
  | StoredString.rawText s => s != ""

/-- loadUserProgress (src/script.js lines 443-457).  The guard
`if (savedProgress)` tests the truthiness of the getItem result, so it
is skipped both when no record is stored (getItem yields null, falsy)
and when the stored value is the empty string (falsy too) - in both
cases the state is untouched and nothing is logged.  When the guard
passes and the stored record loads, `state.visitedSections` is
replaced; when anything in the try block throws, the catch branch logs
the error (`parseError` outcome) and leaves the state untouched.  The
function itself never throws. -/
def loadUserProgress (st : AppState) (store : Store) : AppState × LoadOutcome :=
  match store.getItem PROGRESS_KEY with
  | none => (st, LoadOutcome.noRecord)
  | some sv =>
      if storedTruthy sv = true then
        match loadTry st sv with
        | Except.ok (st2, n) => (st2, LoadOutcome.loaded n)
        | Except.error _ => (st, LoadOutcome.parseError)
      else (st, LoadOutcome.noRecord)

/-- The progress-tracking part of the DOMContentLoaded handler
(src/script.js lines 58-72): starting from the initial empty state, run
loadUserProgress against the given store.  Being a total Lean function,
it reflects that the handler runs to completion - the only fallible
statements sit inside the try/catch of loadUserProgress. -/
def initializeApp (store : Store) : AppState × LoadOutcome :=
  loadUserProgress initialState store

/-- An IntersectionObserverEntry as delivered to the section observer
callback of initializeProgressTracking (src/script.js lines 336-342):
the id attribute of the target section, the isIntersecting flag, and
the intersection ratio (a float in the unit interval, embedded as a
rational). -/
structure ObserverEntry where
  targetId : String
  isIntersecting : Bool
  intersectionRatio : ℚ
deriving DecidableEq, Repr

/-- The body of the section observer callback for one entry
(src/script.js lines 337-341): when the entry is intersecting and its
ratio exceeds 0.5, invoke markSectionVisited on the target id.  The
boolean component records whether markSectionVisited was invoked. -/
def sectionObserverCallback (st : AppState) (e : ObserverEntry) (now : String)
    (store : Store) : AppState × Store × Bool :=
  if e.isIntersecting = true ∧ 1 / 2 < ObserverEntry.intersectionRatio e then
    ((markSectionVisited st e.targetId now store).1,
     (markSectionVisited st e.targetId now store).2.1, true)
  else
    (st, store, false)

/-! ## Helper lemmas -/

/-- Reading back a key just written returns the written value. -/
theorem Store.getItem_setItem (store : Store) (k : String) (v : StoredString) :
    Store.getItem (Store.setItem store k v) k = some v := by
  simp [Store.getItem, Store.setItem]

/-- Membership in the visited set after one markSectionVisited call. -/
theorem mem_markSectionVisited (st : AppState) (id now x : String) (store : Store) :
    x ∈ (markSectionVisited st id now store).1.visitedSections ↔
      x ∈ st.visitedSections ∨ x = id := by
  by_cases h : id ∈ st.visitedSections
  · simp only [markSectionVisited, if_pos h]
    constructor
    · exact Or.inl
    · rintro (hx | rfl)
      · exact hx
      · exact h
  · simp [markSectionVisited, if_neg h, List.mem_append]

/-- Membership after a sequence of markSectionVisited calls: an identifier is
in the final set exactly when it was there initially or occurs in the
sequence. -/
theorem runMarks_mem (now x : String) (ids : List String) :
    ∀ (st : AppState) (store : Store),
      x ∈ (runMarks now st store ids).1.visitedSections ↔
        x ∈ st.visitedSections ∨ x ∈ ids := by
  induction ids with
  | nil =>
      intro st store
      simp [runMarks]
  | cons id ids ih =>
      intro st store
      rw [show runMarks now st store (id :: ids)
            = runMarks now (markSectionVisited st id now store).1
                (markSectionVisited st id now store).2.1 ids from rfl]
      rw [ih, mem_markSectionVisited]
      simp only [List.mem_cons]
      tauto

/-- Membership in one JavaScript Set insertion step. -/
theorem mem_insSetList (x a : String) (acc : List String) :
    x ∈ insSetList acc a ↔ x ∈ acc ∨ x = a := by
  by_cases h : a ∈ acc
  · simp only [insSetList, if_pos h]
    constructor
    · exact Or.inl
    · rintro (hx | rfl)
      · exact hx
      · exact h
  · simp [insSetList, if_neg h, List.mem_append]

/-- Membership through the Set-construction fold. -/
theorem mem_foldl_insSetList (x : String) (l : List String) :
    ∀ acc : List String, x ∈ l.foldl insSetList acc ↔ x ∈ acc ∨ x ∈ l := by
  induction l with
  | nil =>
      intro acc
      simp
  | cons a l ih =>
      intro acc
      rw [List.foldl_cons, ih, mem_insSetList]
      simp only [List.mem_cons]
      tauto

/-- new Set(xs) has the same membership as xs. -/
theorem mem_setFromList (x : String) (l : List String) :
    x ∈ setFromList l ↔ x ∈ l := by
  rw [setFromList, mem_foldl_insSetList]
  simp

/-- Stringifying each identifier and reading the strings back is the
identity. -/
theorem filterMap_asStr_map (l : List String) :
    (l.map Json.str).filterMap Json.asStr = l := by
  induction l with
  | nil => rfl
  | cons a l ih => simp [Json.asStr, ih]

/-! ## Claim theorems -/

/-- C1: for every finite sequence of markSectionVisited calls with
arbitrary, possibly repeated identifiers, starting from the empty
visited set, the resulting set of visited sections is exactly the set
of distinct identifiers in the sequence, independent of order and
repetition. -/
theorem runMarks_yields_distinct_ids (ids : List String) (now : String)
    (store : Store) :
    ((runMarks now initialState store ids).1.visitedSections).toFinset
      = ids.toFinset := by
  ext x
  simp only [List.mem_toFinset]
  rw [runMarks_mem]
  simp [initialState]

/-- C2 counterexample: the claim says markVisited returns true on a
fresh identifier; the source function has no return statement, so the
call on the fresh identifier "intro" in the empty initial state
evaluates to undefined, not to the boolean true. -/
theorem markSectionVisited_return_cex :
    markSectionVisitedReturn initialState "intro" ≠ JsValue.boolean true := by
  simp [markSectionVisitedReturn]

/-- C2 (amended): for a fresh identifier, the first call performs the
insertion and triggers the persistence write, the immediately repeated
call is a no-op returning the state and store unchanged with no write,
and the set grows by exactly one element; the JavaScript return value
is undefined both times rather than the booleans true and false. -/
theorem markSectionVisited_idempotent (st : AppState) (x now : String)
    (store : Store) (hx : x ∉ st.visitedSections) :
    (markSectionVisited st x now store).2.2 = true ∧
    markSectionVisited (markSectionVisited st x now store).1 x now
        (markSectionVisited st x now store).2.1
      = ((markSectionVisited st x now store).1,
         (markSectionVisited st x now store).2.1, false) ∧
    (markSectionVisited st x now store).1.visitedSections.length
      = st.visitedSections.length + 1 ∧
    markSectionVisitedReturn st x = JsValue.undefined := by
  refine ⟨?_, ?_, ?_, rfl⟩
  · simp [markSectionVisited, if_neg hx]
  · simp [markSectionVisited, if_neg hx]
  · simp [markSectionVisited, if_neg hx]

/-- C2 witness: the amended statement at the fresh identifier "intro"
in the empty initial state with an empty store. -/
theorem markSectionVisited_idempotent_witness :
    "intro" ∉ initialState.visitedSections ∧
    ((markSectionVisited initialState "intro" "t0" []).2.2 = true ∧
     markSectionVisited (markSectionVisited initialState "intro" "t0" []).1
         "intro" "t0" (markSectionVisited initialState "intro" "t0" []).2.1
       = ((markSectionVisited initialState "intro" "t0" []).1,
          (markSectionVisited initialState "intro" "t0" []).2.1, false) ∧
     (markSectionVisited initialState "intro" "t0" []).1.visitedSections.length
       = initialState.visitedSections.length + 1 ∧
     markSectionVisitedReturn initialState "intro" = JsValue.undefined) :=
  ⟨by simp [initialState],
   markSectionVisited_idempotent initialState "intro" "t0" []
     (by simp [initialState])⟩

/-- C6 counterexample: called with the empty section identifier on the
empty initial state, markSectionVisited does not fail fast: it inserts
the empty string, triggers the persistence write, and its JavaScript
return value is undefined (no error result, no exception). -/
theorem markSectionVisited_empty_id_cex :
    (markSectionVisited initialState "" "t0" []).1.visitedSections = [""] ∧
    (markSectionVisited initialState "" "t0" []).2.2 = true ∧
    markSectionVisitedReturn initialState "" = JsValue.undefined := by
  refine ⟨?_, ?_, rfl⟩ <;> simp [markSectionVisited, initialState]

/-- C6 (amended): the source performs no precondition checks: there is
no initialize step or lifecycle state, and markSectionVisited applied
to the empty identifier silently proceeds, inserting the empty string
and persisting, with the usual undefined return value. -/
theorem markSectionVisited_no_precondition (st : AppState) (now : String)
    (store : Store) (h : "" ∉ st.visitedSections) :
    (markSectionVisited st "" now store).1.visitedSections
      = st.visitedSections ++ [""] ∧
    (markSectionVisited st "" now store).2.2 = true ∧
    markSectionVisitedReturn st "" = JsValue.undefined := by
  refine ⟨?_, ?_, rfl⟩ <;> simp [markSectionVisited, if_neg h]

/-- C6 witness: the amended statement at the empty identifier on a
state already holding one visited section. -/
theorem markSectionVisited_no_precondition_witness :
    "" ∉ (⟨["a"]⟩ : AppState).visitedSections ∧
    ((markSectionVisited ⟨["a"]⟩ "" "t0" []).1.visitedSections
       = (⟨["a"]⟩ : AppState).visitedSections ++ [""] ∧
     (markSectionVisited ⟨["a"]⟩ "" "t0" []).2.2 = true ∧
     markSectionVisitedReturn ⟨["a"]⟩ "" = JsValue.undefined) :=
  ⟨by simp, markSectionVisited_no_precondition ⟨["a"]⟩ "t0" [] (by simp)⟩

/-- C7: the visited set is monotonically non-decreasing: an identifier
visited before any further sequence of tracker operations is still
visited after it (markSectionVisited only inserts; saveUserProgress
returns only a store and completionPercentage is a pure function, so
neither touches the set). -/
theorem visitedSections_monotone (st : AppState) (store : Store)
    (now x : String) (ids : List String) (hx : x ∈ st.visitedSections) :
    x ∈ (runMarks now st store ids).1.visitedSections := by
  rw [runMarks_mem]
  exact Or.inl hx

/-- C7 witness: the identifier a, visited at the start, survives the
subsequent marking of b and a repeat of a. -/
theorem visitedSections_monotone_witness :
    "a" ∈ (⟨["a"]⟩ : AppState).visitedSections ∧
    "a" ∈ (runMarks "t0" ⟨["a"]⟩ [] ["b", "a"]).1.visitedSections :=
  ⟨by simp, visitedSections_monotone ⟨["a"]⟩ [] "t0" "a" ["b", "a"] (by simp)⟩

/-- C9: when nothing is stored under the progress key, loadUserProgress
leaves the initial state untouched - the visited set stays empty - and
reports no error (the if branch is skipped entirely). -/
theorem loadUserProgress_absent (store : Store)
    (h : Store.getItem store PROGRESS_KEY = none) :
    loadUserProgress initialState store = (initialState, LoadOutcome.noRecord) ∧
    initialState.visitedSections = [] := by
  constructor
  · rw [loadUserProgress, h]
  · rfl

/-- C9 witness: the empty store holds no record under the progress key. -/
theorem loadUserProgress_absent_witness :
    Store.getItem [] PROGRESS_KEY = none ∧
    (loadUserProgress initialState [] = (initialState, LoadOutcome.noRecord) ∧
     initialState.visitedSections = []) :=
  ⟨rfl, loadUserProgress_absent [] rfl⟩

/-- Composed form of the previous lemma, as simp leaves it. -/
theorem filterMap_asStr_comp (l : List String) :
    List.filterMap (Json.asStr ∘ Json.str) l = l := by
  induction l with
  | nil => rfl
  | cons a l ih => simp [Json.asStr, ih, Function.comp]

/-- The computation of the try block on the record saveUserProgress
writes: parses back, finds the visitedSections field, and rebuilds the
set from the serialized identifiers. -/
theorem loadTry_saved (st0 st : AppState) (now : String) :
    loadTry st0 (StoredString.jsonText (Json.obj
        [("visitedSections", Json.arr (st.visitedSections.map Json.str)),
         ("lastVisited", Json.str now)]))
      = Except.ok ({ st0 with visitedSections := setFromList st.visitedSections },
                   (setFromList st.visitedSections).length) := by
  simp [loadTry, Bind.bind, Except.bind, jsonParse, Json.memberAccess,
        jsonLookup, List.find?, jsOrEmptyArray, jsTruthy, newSetOfStrings,
        filterMap_asStr_map, filterMap_asStr_comp]

/-- C3: persistence round-trips: loading what saveUserProgress stored
yields a visited set with exactly the same membership as the saved one,
and the load succeeds (no parse error). -/
theorem save_load_roundtrip (st st0 : AppState) (now : String) (store : Store) :
    (∀ x, x ∈ (loadUserProgress st0 (saveUserProgress st now store)).1.visitedSections
        ↔ x ∈ st.visitedSections) ∧
    (loadUserProgress st0 (saveUserProgress st now store)).2
      = LoadOutcome.loaded (setFromList st.visitedSections).length := by
  have hload : loadUserProgress st0 (saveUserProgress st now store)
      = ({ st0 with visitedSections := setFromList st.visitedSections },
         LoadOutcome.loaded (setFromList st.visitedSections).length) := by
    simp only [loadUserProgress, saveUserProgress, Store.getItem_setItem,
               storedTruthy, loadTry_saved]
    rw [if_pos trivial]
  refine ⟨fun x => ?_, by rw [hload]⟩
  rw [hload]
  exact mem_setFromList x st.visitedSections

/-- C5 counterexample: the stored empty string is a value that exists
under the progress key and does not decode as a PersistedRecord
(JSON.parse throws on it), yet the falsy guard `if (savedProgress)` of
src/script.js line 446 skips the whole branch, so no ParseError is ever
reported - the run is indistinguishable from the no-record case. -/
theorem loadUserProgress_empty_string_cex :
    Store.getItem (Store.setItem [] PROGRESS_KEY (StoredString.rawText ""))
        PROGRESS_KEY = some (StoredString.rawText "") ∧
    jsonParse (StoredString.rawText "") = Except.error JsError.parseFailure ∧
    initializeApp (Store.setItem [] PROGRESS_KEY (StoredString.rawText ""))
      = (initialState, LoadOutcome.noRecord) ∧
    (initializeApp (Store.setItem [] PROGRESS_KEY
        (StoredString.rawText ""))).2 ≠ LoadOutcome.parseError := by
  have h3 : initializeApp (Store.setItem [] PROGRESS_KEY
      (StoredString.rawText "")) = (initialState, LoadOutcome.noRecord) := rfl
  exact ⟨Store.getItem_setItem [] PROGRESS_KEY (StoredString.rawText ""), rfl,
    h3, by rw [h3]; decide⟩

/-- C5 (amended): for every truthy (non-empty) stored string that does
not decode as a PersistedRecord, loadUserProgress catches the thrown
SyntaxError, reports it through the error log, leaves the visited set
empty, and initialization still runs to completion; the stored empty
string also fails to decode but is skipped silently by the truthiness
guard with no error reported, likewise leaving progress empty and
initialization completing. -/
theorem initializeApp_malformed_record (store store2 : Store) (s : String)
    (hs : s ≠ "") :
    initializeApp (Store.setItem store PROGRESS_KEY (StoredString.rawText s))
      = (initialState, LoadOutcome.parseError) ∧
    initializeApp (Store.setItem store2 PROGRESS_KEY (StoredString.rawText ""))
      = (initialState, LoadOutcome.noRecord) ∧
    initialState.visitedSections = [] := by
  have hguard : storedTruthy (StoredString.rawText s) = true := by
    simp [storedTruthy, hs]
  refine ⟨?_, rfl, rfl⟩
  simp only [initializeApp, loadUserProgress, Store.getItem_setItem, hguard]
  rfl

/-- C5 witness: the amended statement at the truthy malformed stored
string "not json". -/
theorem initializeApp_malformed_record_witness :
    "not json" ≠ "" ∧
    (initializeApp (Store.setItem [] PROGRESS_KEY
         (StoredString.rawText "not json"))
       = (initialState, LoadOutcome.parseError) ∧
     initializeApp (Store.setItem [] PROGRESS_KEY (StoredString.rawText ""))
       = (initialState, LoadOutcome.noRecord) ∧
     initialState.visitedSections = []) :=
  ⟨by decide, initializeApp_malformed_record [] [] "not json" (by decide)⟩

/-- C10: when the stored value parses as JSON but its visitedSections
field is absent or null, loading succeeds with an empty visited set and
no error: undefined and null both fall through the or-default to the
empty array. -/
theorem loadUserProgress_field_absent_or_null (store : Store)
    (fields : List (String × Json))
    (h : jsonLookup fields "visitedSections" = none ∨
         jsonLookup fields "visitedSections" = some Json.null) :
    loadUserProgress initialState (Store.setItem store PROGRESS_KEY
        (StoredString.jsonText (Json.obj fields)))
      = (initialState, LoadOutcome.loaded 0) := by
  have htry : loadTry initialState (StoredString.jsonText (Json.obj fields))
      = Except.ok (initialState, 0) := by
    rcases h with h | h <;>
      simp [loadTry, Bind.bind, Except.bind, jsonParse, Json.memberAccess, h,
            jsOrEmptyArray, jsTruthy, newSetOfStrings, setFromList,
            initialState]
  simp only [loadUserProgress, Store.getItem_setItem, storedTruthy, htry]
  rw [if_pos trivial]

/-- C10 witness: a stored record that is an object with no fields at
all, so the visitedSections lookup is undefined. -/
theorem loadUserProgress_field_absent_or_null_witness :
    (jsonLookup [] "visitedSections" = none ∨
     jsonLookup [] "visitedSections" = some Json.null) ∧
    loadUserProgress initialState (Store.setItem [] PROGRESS_KEY
        (StoredString.jsonText (Json.obj [])))
      = (initialState, LoadOutcome.loaded 0) :=
  ⟨Or.inl rfl, loadUserProgress_field_absent_or_null [] [] (Or.inl rfl)⟩

/-- C4 counterexample: the percentage is not clamped to the unit
interval of percents: with 7 visited sections against a total of 5 (a
state reachable by loading persisted identifiers that are not on the
page), the code yields 140, outside the claimed range. -/
theorem completionPercentage_not_clamped_cex :
    completionPercentage 7 5 = 140 ∧ 100 < completionPercentage 7 5 := by
  have h : completionPercentage 7 5 = 140 := by
    rw [completionPercentage, jsMathRound, Int.floor_eq_iff]; norm_num
  exact ⟨h, by rw [h]; norm_num⟩

/-- C4 (amended): the percentage equals the round-half-up of the exact
value 100 times count over total; it lies in the interval from 0 to 100
whenever the count is at most the total (the code performs no clamping
beyond that arithmetic fact), it is exactly 100 at full completion, and
exactly 0 with nothing visited. -/
theorem completionPercentage_props (c t : ℕ) (ht : 0 < t) :
    completionPercentage c t = ⌊(100 * (c : ℚ)) / (t : ℚ) + 1 / 2⌋ ∧
    (c ≤ t → 0 ≤ completionPercentage c t ∧ completionPercentage c t ≤ 100) ∧
    (c = t → completionPercentage c t = 100) ∧
    (c = 0 → completionPercentage c t = 0) := by
  have ht0 : (0 : ℚ) < (t : ℚ) := by exact_mod_cast ht
  have hq : (c : ℚ) / (t : ℚ) * 100 = 100 * (c : ℚ) / (t : ℚ) := by ring
  refine ⟨by rw [completionPercentage, jsMathRound, hq], ?_, ?_, ?_⟩
  · intro hct
    have hle : (c : ℚ) ≤ (t : ℚ) := by exact_mod_cast hct
    have h1 : (0 : ℚ) ≤ (c : ℚ) / (t : ℚ) * 100 := by positivity
    have h2 : (c : ℚ) / (t : ℚ) * 100 ≤ 100 := by
      rw [div_mul_eq_mul_div, div_le_iff₀ ht0]
      nlinarith
    constructor
    · rw [completionPercentage, jsMathRound]
      refine Int.le_floor.mpr ?_
      push_cast
      linarith
    · rw [completionPercentage, jsMathRound]
      have hlt : (c : ℚ) / (t : ℚ) * 100 + 1 / 2 < 101 := by linarith
      have := Int.floor_lt.mpr (by push_cast; linarith : (c : ℚ) / (t : ℚ) * 100 + 1 / 2 < ((101 : ℤ) : ℚ))
      omega
  · rintro rfl
    rw [completionPercentage, jsMathRound, div_self (ne_of_gt ht0), one_mul,
        Int.floor_eq_iff]; norm_num
  · rintro rfl
    rw [completionPercentage, jsMathRound]
    norm_num

/-- C4 witness: the amended statement at full completion, 5 of 5. -/
theorem completionPercentage_props_witness :
    0 < 5 ∧
    (completionPercentage 5 5 = ⌊(100 * ((5 : ℕ) : ℚ)) / ((5 : ℕ) : ℚ) + 1 / 2⌋ ∧
     (5 ≤ 5 → 0 ≤ completionPercentage 5 5 ∧ completionPercentage 5 5 ≤ 100) ∧
     (5 = 5 → completionPercentage 5 5 = 100) ∧
     ((5 : ℕ) = 0 → completionPercentage 5 5 = 0)) :=
  ⟨by norm_num, completionPercentage_props 5 5 (by norm_num)⟩

/-- C8: under the platform guarantee that an entry with positive
intersection ratio is delivered with its isIntersecting flag set, the
section observer callback invokes markSectionVisited exactly when the
intersection ratio strictly exceeds one half, and an event at or below
one half leaves state and store untouched. -/
theorem sectionObserverCallback_threshold (st : AppState) (e : ObserverEntry)
    (now : String) (store : Store)
    (hplat : 0 < ObserverEntry.intersectionRatio e → e.isIntersecting = true) :
    ((sectionObserverCallback st e now store).2.2 = true ↔
      1 / 2 < ObserverEntry.intersectionRatio e) ∧
    (ObserverEntry.intersectionRatio e ≤ 1 / 2 →
      sectionObserverCallback st e now store = (st, store, false)) := by
  by_cases hc : e.isIntersecting = true ∧ 1 / 2 < ObserverEntry.intersectionRatio e
  · constructor
    · rw [sectionObserverCallback, if_pos hc]
      exact ⟨fun _ => hc.2, fun _ => rfl⟩
    · intro hle
      exact absurd hc.2 (not_lt.mpr hle)
  · have hflag : sectionObserverCallback st e now store = (st, store, false) := by
      rw [sectionObserverCallback, if_neg hc]
    refine ⟨?_, fun _ => hflag⟩
    rw [hflag]
    constructor
    · intro h
      exact absurd h (by simp)
    · intro hr
      have h0 : 0 < ObserverEntry.intersectionRatio e := lt_trans (by norm_num) hr
      exact absurd ⟨hplat h0, hr⟩ hc

/-- C8 witness: an entry three quarters visible and intersecting does
trigger the mark, as the theorem instantiates. -/
theorem sectionObserverCallback_threshold_witness :
    (0 < ObserverEntry.intersectionRatio ⟨"intro", true, 3 / 4⟩ →
      (⟨"intro", true, 3 / 4⟩ : ObserverEntry).isIntersecting = true) ∧
    (((sectionObserverCallback initialState ⟨"intro", true, 3 / 4⟩ "t0" []).2.2 = true ↔
       1 / 2 < ObserverEntry.intersectionRatio ⟨"intro", true, 3 / 4⟩) ∧
     (ObserverEntry.intersectionRatio ⟨"intro", true, 3 / 4⟩ ≤ 1 / 2 →
       sectionObserverCallback initialState ⟨"intro", true, 3 / 4⟩ "t0" []
         = (initialState, [], false))) :=
  ⟨fun _ => rfl,
   sectionObserverCallback_threshold initialState ⟨"intro", true, 3 / 4⟩ "t0" []
     (fun _ => rfl)⟩
